import Mathlib

/-!
Shallow embedding of the powder bootstrap compiler front end
(src/powder-bootstrap/src/lexer.rs, ast.rs, parser.rs).

Conventions of the embedding:
* Rust `usize` indices become `Nat`; `i128` literal values become `Int`
  with explicit bound checks at `2 ^ 127` where the Rust code's overflow
  behaviour matters.
* Source text is a `List Char`; positions are character indices.  The Rust
  lexer mixes byte indices (`code.len()`, slicing) and character indices
  (`chars().nth`), which coincide exactly on ASCII input; general theorems
  about the lexer therefore carry an ASCII hypothesis.
* Fallible Rust functions returning `Result<T, String>` become
  `Except PErr T`; a Rust panic (slice indexing out of bounds, `.unwrap()`
  on `None`/`Err`) is the distinguished error `PErr.panicked`, which the
  error plumbing propagates.  Loops and recursion are given explicit fuel;
  running out of fuel is the distinguished `PErr.outOfFuel`, and every
  caller passes fuel large enough that it is never reached.
* Methods taking `&mut self` become functions `TokenStream → result ×
  TokenStream`; on the error paths the returned stream is exactly the
  stream the Rust code leaves behind.
-/

/-- Token kinds, from `lexer.rs` (`enum TokenType`).  The misspelling
`Identifer` is the source's. -/
inductive TokenType where
  | Comment
  | Function
  | Const
  | Var
  | N64
  | Identifer
  | IntegerLiteral
  | OpenParenthesis
  | CloseParenthesis
  | OpenBrace
  | CloseBrace
  | Colon
  | Equals
  | Semicolon
  | Plus
  | Minus
  | Star
  | Slash
deriving DecidableEq

/-- The string `{:?}` produces for a `TokenType` (Rust `derive(Debug)`
prints the variant name). -/
def TokenType.debugName : TokenType → String
  | .Comment => "Comment"
  | .Function => "Function"
  | .Const => "Const"
  | .Var => "Var"
  | .N64 => "N64"
  | .Identifer => "Identifer"
  | .IntegerLiteral => "IntegerLiteral"
  | .OpenParenthesis => "OpenParenthesis"
  | .CloseParenthesis => "CloseParenthesis"
  | .OpenBrace => "OpenBrace"
  | .CloseBrace => "CloseBrace"
  | .Colon => "Colon"
  | .Equals => "Equals"
  | .Semicolon => "Semicolon"
  | .Plus => "Plus"
  | .Minus => "Minus"
  | .Star => "Star"
  | .Slash => "Slash"

/-- `TokenType::from_keyword` (lexer.rs). -/
def TokenType.from_keyword (s : List Char) : Option TokenType :=
  if s = ("function").toList then some .Function
  else if s = ("const").toList then some .Const
  else if s = ("var").toList then some .Var
  else if s = ("n64").toList then some .N64
  else none

/-- `TokenType::from_symbol` (lexer.rs). -/
def TokenType.from_symbol (c : Char) : Option TokenType :=
  if c = '(' then some .OpenParenthesis
  else if c = ')' then some .CloseParenthesis
  else if c = '{' then some .OpenBrace
  else if c = '}' then some .CloseBrace
  else if c = ':' then some .Colon
  else if c = '=' then some .Equals
  else if c = ';' then some .Semicolon
  else if c = '+' then some .Plus
  else if c = '-' then some .Minus
  else if c = '*' then some .Star
  else if c = '/' then some .Slash
  else none

/-- `struct Token` (lexer.rs): a kind, a span into the source, and the
source text itself (`end` is `end_` because `end` is a Lean keyword). -/
structure Token where
  type_ : TokenType
  start : Nat
  end_ : Nat
  code : List Char
deriving DecidableEq

/-- `Token::text` (lexer.rs): the lexeme `code[start..end]`. -/
def Token.text (t : Token) : List Char :=
  (t.code.drop t.start).take (t.end_ - t.start)

/-- `Token::expect` (lexer.rs): the token itself when its kind matches,
otherwise a message naming the expected kind. -/
def Token.expect (t : Token) (type_ : TokenType) : Except String Token :=
  if t.type_ = type_ then .ok t
  else .error ("Expected '" ++ type_.debugName ++ "' token")

/-- The string `{:?}` produces for a `&[TokenType]`. -/
def debugList (types : List TokenType) : String :=
  "[" ++ String.intercalate ", " (types.map TokenType.debugName) ++ "]"

/-- `Token::expect_any` (lexer.rs). -/
def Token.expect_any (t : Token) (types : List TokenType) : Except String Token :=
  if types.contains t.type_ then .ok t
  else .error ("Expected any of '" ++ debugList types ++ "' token")

/-- Rust `char::is_whitespace`: the Unicode White_Space property,
transcribed in full. -/
def rustIsWhitespace (c : Char) : Bool :=
  ([9, 10, 11, 12, 13, 32, 0x85, 0xa0, 0x1680, 0x2028, 0x2029,
    0x202f, 0x205f, 0x3000].contains c.toNat)
  || (0x2000 ≤ c.toNat && c.toNat ≤ 0x200a)

/-- The lexer's word-start match arm in `lex`: an ASCII letter or an
underscore. -/
def isWordStartChar (c : Char) : Bool :=
  (('a' ≤ c && c ≤ 'z') || ('A' ≤ c && c ≤ 'Z') || c = '_')

/-- Rust `char::is_ascii_digit`. -/
def isAsciiDigitChar (c : Char) : Bool :=
  ('0' ≤ c && c ≤ '9')

/-- Rust `char::is_alphanumeric`, restricted to the ASCII range (on which
it coincides with digit-or-letter; every lexer theorem below restricts the
source to ASCII, where this model is exact). -/
def rustIsAlphanumericChar (c : Char) : Bool :=
  (('a' ≤ c && c ≤ 'z') || ('A' ≤ c && c ≤ 'Z') || ('0' ≤ c && c ≤ '9'))

/-- The predicate of `LexerState::next_word`: alphanumeric or underscore. -/
def isWordChar (c : Char) : Bool :=
  rustIsAlphanumericChar c || c = '_'

/-- The out-of-range placeholder character (never read on the guarded
paths the lexer actually takes). -/
def nullChar : Char := Char.ofNat 0

/-- `LexerState::next_of_kind` (also `skip_whitespace`): advance the
position over the longest run satisfying `pred`, stopping at the end of
the source.  The fuel bounds the loop; `code.length + 1` always
suffices. -/
def scanWhile (code : List Char) (pred : Char → Bool) : Nat → Nat → Nat
  | 0, pos => pos
  | fuel + 1, pos =>
    if pos < code.length ∧ pred (code.getD pos nullChar) then
      scanWhile code pred fuel (pos + 1)
    else pos

/-- The comment loop of `lex`: `while current_char() != '\n' { if
advance().is_none() { break } }`. -/
def commentSkip (code : List Char) : Nat → Nat → Nat
  | 0, pos => pos
  | fuel + 1, pos =>
    if code.getD pos nullChar ≠ '\n' then
      if pos + 1 ≥ code.length then pos + 1
      else commentSkip code fuel (pos + 1)
    else pos

/-- The main loop of `lex` (lexer.rs): skip whitespace, classify the
current character, emit a token, repeat.  An unrecognized character is the
only error (`"Unexpected token '{}'"`, which names the character but not
its offset). -/
def lexLoop (code : List Char) : Nat → Nat → List Token → Except String (List Token)
  | 0, _, _ => .error "lexer out of fuel"
  | fuel + 1, pos0, tokens =>
    if pos0 ≥ code.length then .ok tokens
    else
      let pos := scanWhile code rustIsWhitespace (code.length + 1) pos0
      if pos ≥ code.length then .ok tokens
      else
        let start := pos
        let c := code.getD pos nullChar
        if c = '/' then
          if code[pos + 1]? = some '/' then
            let pos2 := commentSkip code (code.length + 1) pos
            lexLoop code fuel pos2
              (tokens ++ [⟨.Comment, start, pos2, code⟩])
          else
            lexLoop code fuel (pos + 1)
              (tokens ++ [⟨.Slash, start, start + 1, code⟩])
        else if isWordStartChar c then
          let pos2 := scanWhile code isWordChar (code.length + 1) pos
          let word := (code.drop start).take (pos2 - start)
          match TokenType.from_keyword word with
          | some keyword_type =>
            lexLoop code fuel pos2 (tokens ++ [⟨keyword_type, start, pos2, code⟩])
          | none =>
            lexLoop code fuel pos2 (tokens ++ [⟨.Identifer, start, pos2, code⟩])
        else if isAsciiDigitChar c then
          let pos2 := scanWhile code isAsciiDigitChar (code.length + 1) pos
          lexLoop code fuel pos2 (tokens ++ [⟨.IntegerLiteral, start, pos2, code⟩])
        else
          match TokenType.from_symbol c with
          | some symbol_type =>
            lexLoop code fuel (pos + 1) (tokens ++ [⟨symbol_type, start, pos + 1, code⟩])
          | none =>
            .error ("Unexpected token '" ++ String.mk [c] ++ "'")

/-- `lex` (lexer.rs). -/
def lex (code : List Char) : Except String (List Token) :=
  lexLoop code (code.length + 1) 0 []

/-- `enum UnaryOperator` (ast.rs). -/
inductive UnaryOperator where
  | Plus
  | Minus
  | Not
  | Reference
  | Dereference
deriving DecidableEq

/-- `UnaryOperator::from_token_type` (ast.rs). -/
def UnaryOperator.from_token_type : TokenType → Option UnaryOperator
  | .Plus => some .Plus
  | .Minus => some .Minus
  | _ => none

/-- `enum BinaryOperator` (ast.rs). -/
inductive BinaryOperator where
  | Add
  | Subtract
  | Multiply
  | Divide
deriving DecidableEq

/-- `BinaryOperator::from_token_type` (ast.rs).  As in the source, `Slash`
falls through to `none` (the source carries a TODO there). -/
def BinaryOperator.from_token_type : TokenType → Option BinaryOperator
  | .Plus => some .Add
  | .Minus => some .Subtract
  | .Star => some .Multiply
  | _ => none

/-- `enum Expression` (ast.rs); the literal payload is `i128` in the
source. -/
inductive Expression where
  | NaturalLiteral (value : Int)
  | UnaryOperation (op : UnaryOperator) (operand : Expression)
  | BinaryOperation (operator : BinaryOperator) (lhs rhs : Expression)
deriving DecidableEq

/-- `enum VariableKind` (ast.rs). -/
inductive VariableKind where
  | Immutable
  | Mutable
deriving DecidableEq

/-- `enum Type` (ast.rs); `Type` is a Lean universe, hence the prime. -/
inductive Type' where
  | N64
deriving DecidableEq

/-- `enum Statement` (ast.rs). -/
inductive Statement where
  | Expression (e : Expression)
  | VariableDeclaration (kind : VariableKind) (name : String) (type_ : Type')
      (initial_value : Option Expression)
deriving DecidableEq

/-- `struct Block` (ast.rs). -/
structure Block where
  statements : List Statement
  value : Option Expression
deriving DecidableEq

/-- `struct Function` (ast.rs); primed to avoid Lean's `Function`
namespace. -/
structure Function' where
  name : String
  body : Block
deriving DecidableEq

/-- `enum Definition` (ast.rs). -/
inductive Definition where
  | Function (f : Function')
  | Statement (s : Statement)
deriving DecidableEq

/-- `struct File` (ast.rs); primed to keep the name clear of other
namespaces. -/
structure File' where
  definitions : List Definition
deriving DecidableEq

deriving instance DecidableEq for Except

/-- The error channel of the parser: `PErr.parse` is a propagated
`Err(String)`; `PErr.panicked` marks a Rust panic (out-of-range slice
indexing or `.unwrap()` on `None`/`Err`); `PErr.outOfFuel` is the
embedding's fuel artifact, unreachable at the fuel every caller passes. -/
inductive PErr where
  | parse (msg : String)
  | panicked
  | outOfFuel
deriving DecidableEq

/-- `struct TokenStream` (parser.rs): a token slice and a cursor. -/
structure TokenStream where
  tokens : List Token
  index : Nat
deriving DecidableEq

/-- `TokenStream::new`. -/
def TokenStream.new (tokens : List Token) : TokenStream :=
  ⟨tokens, 0⟩

/-- `TokenStream::strip_comments`. -/
def TokenStream.strip_comments (tokens : List Token) : List Token :=
  tokens.filter (fun token => token.type_ != TokenType.Comment)

/-- `TokenStream::len`. -/
def TokenStream.len (ts : TokenStream) : Nat :=
  ts.tokens.length

/-- `TokenStream::is_end`. -/
def TokenStream.is_end (ts : TokenStream) : Bool :=
  decide (ts.index ≥ ts.len)

/-- `TokenStream::next`: the token at the cursor, advancing by one; the
stated error when already at the end (the cursor then stays put). -/
def TokenStream.next (ts : TokenStream) (error_message : String) :
    Except PErr Token × TokenStream :=
  if ts.is_end then (.error (.parse error_message), ts)
  else
    match ts.tokens[ts.index]? with
    | some t => (.ok t, { ts with index := ts.index + 1 })
    | none => (.error .panicked, ts)

/-- `TokenStream::lookahead`: the next `amount` tokens without advancing
(`&self`; the returned stream is always the argument itself). -/
def TokenStream.lookahead (ts : TokenStream) (amount : Nat) (error_message : String) :
    Except PErr (List Token) × TokenStream :=
  if ts.index + amount ≤ ts.tokens.length then
    (.ok ((ts.tokens.drop ts.index).take amount), ts)
  else (.error (.parse error_message), ts)

/-- `TokenStream::backtrack`: move the cursor back by `amount`, failing
(cursor unchanged) when that would go below zero. -/
def TokenStream.backtrack (ts : TokenStream) (amount : Nat) (error_message : String) :
    Except PErr Unit × TokenStream :=
  if (ts.index : Int) - (amount : Int) < 0 then (.error (.parse error_message), ts)
  else (.ok (), { ts with index := ts.index - amount })

/-- `TokenStream::make_substream`: an independently-cursored view starting
at the current cursor. -/
def TokenStream.make_substream (ts : TokenStream) : TokenStream :=
  ⟨ts.tokens.drop ts.index, 0⟩

/-- The search loop of `TokenStream::limit_to_first`: the index of the
first token of the given kind at or after `current`, or the list's length
when there is none.  Fuel `tokens.length + 1` always suffices. -/
def limitLoop (tokens : List Token) (type_ : TokenType) : Nat → Nat → Nat
  | 0, current => current
  | fuel + 1, current =>
    match tokens[current]? with
    | none => current
    | some next_token =>
      if next_token.type_ = type_ then current
      else limitLoop tokens type_ fuel (current + 1)

/-- `TokenStream::limit_to_first`: truncate the visible tokens to end just
before the first token of the given kind at or after the cursor (the
cursor itself is untouched). -/
def TokenStream.limit_to_first (ts : TokenStream) (type_ : TokenType) : TokenStream :=
  { ts with
    tokens := ts.tokens.take (limitLoop ts.tokens type_ (ts.tokens.length + 1) ts.index) }

/-- The loop of `TokenStream::advance_past_other`: consume tokens until
one equal to `target` has been consumed or the stream is exhausted. -/
def advanceLoop (target : Token) : Nat → TokenStream → TokenStream
  | 0, ts => ts
  | fuel + 1, ts =>
    match ts.next "" with
    | (.ok next_token, ts') =>
      if next_token = target then ts' else advanceLoop target fuel ts'
    | (.error _, ts') => ts'

/-- `TokenStream::advance_past_other`. -/
def TokenStream.advance_past_other (ts other : TokenStream) :
    Except PErr Unit × TokenStream :=
  match (other.lookahead 1 "Expected any token").1 with
  | .error e => (.error e, ts)
  | .ok [] => (.error .panicked, ts)
  | .ok (other_token :: _) =>
    (.ok (), advanceLoop other_token (ts.tokens.length + 1) ts)

/-- The decimal value of a digit string (the accumulator loop Rust's
integer parsing performs). -/
def digitsToNat (s : List Char) : Nat :=
  s.foldl (fun acc d => acc * 10 + (d.toNat - ('0').toNat)) 0

/-- Rust `str::parse::<i128>` as called on a lexeme: an optional sign,
then decimal digits, rejected exactly on an empty string, a non-digit, or
a value outside `[-2^127, 2^127 - 1]`; the error strings are the `Display`
forms of `ParseIntError`.  (Rust checks digits and overflow interleaved;
on the all-digit lexemes the lexer produces the two orders agree.) -/
def parseI128 (s : List Char) : Except String Int :=
  match s with
  | [] => .error "cannot parse integer from empty string"
  | c :: rest =>
    let signed : Bool × List Char :=
      if c = '+' then (false, rest)
      else if c = '-' then (true, rest)
      else (false, s)
    match signed with
    | (isNeg, digits) =>
      if digits = [] then .error "invalid digit found in string"
      else if digits.all isAsciiDigitChar then
        if isNeg then
          if digitsToNat digits ≤ 2 ^ 127 then .ok (-(digitsToNat digits : Int))
          else .error "number too small to fit in target type"
        else
          if digitsToNat digits ≤ 2 ^ 127 - 1 then .ok (digitsToNat digits : Int)
          else .error "number too large to fit in target type"
      else .error "invalid digit found in string"

/-- `parse_factor` (parser.rs): a unary `+`/`-` applied to a factor, or an
integer literal parsed from its lexeme; anything else is the stated parse
error.  Fuel bounds the unary recursion. -/
def parse_factor : Nat → TokenStream → Except PErr Expression × TokenStream
  | 0, ts => (.error .outOfFuel, ts)
  | fuel + 1, ts =>
    match (ts.lookahead 1 "Expected expression").1 with
    | .error e => (.error e, ts)
    | .ok [] => (.error .panicked, ts)
    | .ok (token :: _) =>
      match token.type_ with
      | .Plus | .Minus =>
        (match ts.next "" with
         | (.error e, ts1) => (.error e, ts1)
         | (.ok _, ts1) =>
           match parse_factor fuel ts1 with
           | (.error e, ts2) => (.error e, ts2)
           | (.ok unary_operand, ts2) =>
             match UnaryOperator.from_token_type token.type_ with
             | none => (.error .panicked, ts2)
             | some op => (.ok (.UnaryOperation op unary_operand), ts2))
      | .IntegerLiteral =>
        (match ts.next "" with
         | (.error e, ts1) => (.error e, ts1)
         | (.ok nextTok, ts1) =>
           match nextTok.expect .IntegerLiteral with
           | .error e => (.error (.parse e), ts1)
           | .ok number_literal =>
             match parseI128 number_literal.text with
             | .error err =>
               (.error (.parse ("Invalid number literal '" ++ err ++ "'")), ts1)
             | .ok value => (.ok (.NaturalLiteral value), ts1))
      | t =>
        (.error (.parse ("Unknown start of expression '" ++ t.debugName ++ "'")), ts)

/-- The `while let Ok(operator)` loop of `parse_binary_operation`
(parser.rs): peek an operator; stop (keeping `lhs`) when the stream is
exhausted or the operator is outside the accepted set; otherwise consume
it, parse the right operand with the tighter sub-parser, fold to the left,
and continue.  The `.unwrap()` on `BinaryOperator::from_token_type` is the
`panicked` arm. -/
def binOpLoop (subOperation : TokenStream → Except PErr Expression × TokenStream)
    (operators : List TokenType) :
    Nat → Expression → TokenStream → Except PErr Expression × TokenStream
  | 0, _, ts => (.error .outOfFuel, ts)
  | fuel + 1, lhs, ts =>
    match (ts.lookahead 1 ("Expected any of " ++ debugList operators)).1 with
    | .error _ => (.ok lhs, ts)
    | .ok [] => (.error .panicked, ts)
    | .ok (operator :: _) =>
      if operators.contains operator.type_ then
        match ts.next "" with
        | (.error e, ts1) => (.error e, ts1)
        | (.ok _, ts1) =>
          match subOperation ts1 with
          | (.error e, ts2) => (.error e, ts2)
          | (.ok rhs, ts2) =>
            match BinaryOperator.from_token_type operator.type_ with
            | none => (.error .panicked, ts2)
            | some op =>
              binOpLoop subOperation operators fuel
                (.BinaryOperation op lhs rhs) ts2
      else (.ok lhs, ts)

/-- `parse_binary_operation` (parser.rs): one precedence level, generic in
the next-tighter parser and the accepted operator set. -/
def parse_binary_operation (fuel : Nat) (ts : TokenStream)
    (subOperation : TokenStream → Except PErr Expression × TokenStream)
    (operators : List TokenType) : Except PErr Expression × TokenStream :=
  match subOperation ts with
  | (.error e, ts1) => (.error e, ts1)
  | (.ok lhs, ts1) => binOpLoop subOperation operators fuel lhs ts1

/-- `parse_term` (parser.rs): the multiplicative level. -/
def parse_term : Nat → TokenStream → Except PErr Expression × TokenStream
  | 0, ts => (.error .outOfFuel, ts)
  | fuel + 1, ts =>
    parse_binary_operation fuel ts (parse_factor fuel) [TokenType.Star, TokenType.Slash]

/-- `parse_expression` (parser.rs): the additive level. -/
def parse_expression : Nat → TokenStream → Except PErr Expression × TokenStream
  | 0, ts => (.error .outOfFuel, ts)
  | fuel + 1, ts =>
    parse_binary_operation fuel ts (parse_term fuel) [TokenType.Plus, TokenType.Minus]

/-- `parse_statement` (parser.rs): `('const'|'var') Identifier ':' Type
('=' Expression)? ';'`.  The initializer is parsed in a substream limited
to just before the terminating semicolon, after which the main stream is
resynchronized past the substream's last consumed token and the semicolon
is consumed.  The `.unwrap()` in the no-initializer branch is the
`panicked` arm. -/
def parse_statement (ts : TokenStream) : Except PErr Statement × TokenStream :=
  match ts.next "Expected statement" with
  | (.error e, tsA) => (.error e, tsA)
  | (.ok kindTok, ts0) =>
    match kindTok.expect_any [TokenType.Var, TokenType.Const] with
    | .error e => (.error (.parse e), ts0)
    | .ok kind =>
      match ts0.next "Expected identifier" with
      | (.error e, tsA) => (.error e, tsA)
      | (.ok idTok, ts1) =>
        match idTok.expect .Identifer with
        | .error e => (.error (.parse e), ts1)
        | .ok identifier =>
          match ts1.next "Expected ':'" with
          | (.error e, tsA) => (.error e, tsA)
          | (.ok colonTok, ts2) =>
            match colonTok.expect .Colon with
            | .error e => (.error (.parse e), ts2)
            | .ok _ =>
              match ts2.next "Expected type" with
              | (.error e, tsA) => (.error e, tsA)
              | (.ok typeTok, ts3) =>
                match typeTok.expect .N64 with
                | .error e => (.error (.parse e), ts3)
                | .ok _ =>
                  match (ts3.lookahead 1 "Expected '=' or ';'").1 with
                  | .error e => (.error e, ts3)
                  | .ok [] => (.error .panicked, ts3)
                  | .ok (peekTok :: _) =>
                    match peekTok.expect .Equals with
                    | .ok _ =>
                      match ts3.next "" with
                      | (.error e, tsA) => (.error e, tsA)
                      | (.ok _, ts4) =>
                        let expression_stream :=
                          (ts4.make_substream).limit_to_first .Semicolon
                        match parse_expression (expression_stream.len + 2)
                            expression_stream with
                        | (.error e, _) => (.error e, ts4)
                        | (.ok expression, es1) =>
                          match es1.backtrack 1 ":yaksplode:" with
                          | (.error e, _) => (.error e, ts4)
                          | (.ok _, es2) =>
                            match ts4.advance_past_other es2 with
                            | (.error e, ts5) => (.error e, ts5)
                            | (.ok _, ts5) =>
                              match ts5.next "Expected ';'" with
                              | (.error e, tsA) => (.error e, tsA)
                              | (.ok semiTok, ts6) =>
                                match semiTok.expect .Semicolon with
                                | .error e => (.error (.parse e), ts6)
                                | .ok _ =>
                                  (.ok (.VariableDeclaration
                                    (if kind.type_ = .Const then .Immutable else .Mutable)
                                    (String.mk identifier.text) .N64 (some expression)),
                                   ts6)
                    | .error _ =>
                      match ts3.next "" with
                      | (.error _, tsA) => (.error .panicked, tsA)
                      | (.ok semiTok, ts4) =>
                        match semiTok.expect .Semicolon with
                        | .error e => (.error (.parse e), ts4)
                        | .ok _ =>
                          (.ok (.VariableDeclaration
                            (if kind.type_ = .Const then .Immutable else .Mutable)
                            (String.mk identifier.text) .N64 none),
                           ts4)

/-- The statement loop of `parse_block` (parser.rs): parse statements
while the peeked token exists and is not a closing brace. -/
def blockLoop : Nat → TokenStream → List Statement →
    Except PErr (List Statement) × TokenStream
  | 0, ts, _ => (.error .outOfFuel, ts)
  | fuel + 1, ts, statements =>
    match (ts.lookahead 1 "Expected statement").1 with
    | .error _ => (.ok statements, ts)
    | .ok [] => (.error .panicked, ts)
    | .ok (peeked_next :: _) =>
      if peeked_next.type_ ≠ TokenType.CloseBrace then
        match parse_statement ts with
        | (.error e, ts1) => (.error e, ts1)
        | (.ok st, ts1) => blockLoop fuel ts1 (statements ++ [st])
      else (.ok statements, ts)

/-- `parse_block` (parser.rs): `'\x7b' Statement*`; the trailing value is
never parsed (`value = none`). -/
def parse_block (fuel : Nat) (ts : TokenStream) : Except PErr Block × TokenStream :=
  match ts.next "Expected '\x7b'" with
  | (.error e, tsA) => (.error e, tsA)
  | (.ok braceTok, ts1) =>
    match braceTok.expect .OpenBrace with
    | .error e => (.error (.parse e), ts1)
    | .ok _ =>
      match blockLoop fuel ts1 [] with
      | (.error e, ts2) => (.error e, ts2)
      | (.ok statements, ts2) => (.ok ⟨statements, none⟩, ts2)

/-- `parse_definition` (parser.rs): a function definition when the peeked
token is the `function` keyword, otherwise a statement. -/
def parse_definition (fuel : Nat) (ts : TokenStream) :
    Except PErr Definition × TokenStream :=
  match (ts.lookahead 1 "Expected definition").1 with
  | .error e => (.error e, ts)
  | .ok [] => (.error .panicked, ts)
  | .ok (first_token :: _) =>
    match first_token.expect .Function with
    | .ok _ =>
      (match ts.next "" with
       | (.error e, tsA) => (.error e, tsA)
       | (.ok _, ts1) =>
         match ts1.next "Expected function name" with
         | (.error e, tsA) => (.error e, tsA)
         | (.ok nameTok, ts2) =>
           match nameTok.expect .Identifer with
           | .error e => (.error (.parse e), ts2)
           | .ok function_name =>
             match ts2.next "Expected '('" with
             | (.error e, tsA) => (.error e, tsA)
             | (.ok openTok, ts3) =>
               match openTok.expect .OpenParenthesis with
               | .error e => (.error (.parse e), ts3)
               | .ok _ =>
                 match ts3.next "Expected ')'" with
                 | (.error e, tsA) => (.error e, tsA)
                 | (.ok closeTok, ts4) =>
                   match closeTok.expect .CloseParenthesis with
                   | .error e => (.error (.parse e), ts4)
                   | .ok _ =>
                     match parse_block fuel ts4 with
                     | (.error e, ts5) => (.error e, ts5)
                     | (.ok function_body, ts5) =>
                       match ts5.next "Expected '\x7d'" with
                       | (.error e, tsA) => (.error e, tsA)
                       | (.ok braceTok, ts6) =>
                         match braceTok.expect .CloseBrace with
                         | .error e => (.error (.parse e), ts6)
                         | .ok _ =>
                           (.ok (.Function
                             ⟨String.mk function_name.text, function_body⟩), ts6))
    | .error _ =>
      match parse_statement ts with
      | (.error e, ts1) => (.error e, ts1)
      | (.ok st, ts1) => (.ok (.Statement st), ts1)

/-- The `while !token_stream.is_end()` loop of `parse` (parser.rs). -/
def parseLoop : Nat → TokenStream → List Definition →
    Except PErr (List Definition) × TokenStream
  | 0, ts, _ => (.error .outOfFuel, ts)
  | fuel + 1, ts, definitions =>
    if ts.is_end then (.ok definitions, ts)
    else
      match parse_definition fuel ts with
      | (.error e, ts1) => (.error e, ts1)
      | (.ok d, ts1) => parseLoop fuel ts1 (definitions ++ [d])

/-- `parse` (parser.rs): strip comments, then parse definitions until the
stream is exhausted. -/
def parse (tokens : List Token) : Except PErr File' :=
  let stripped_tokens := TokenStream.strip_comments tokens
  match parseLoop (stripped_tokens.length + 2) (TokenStream.new stripped_tokens) [] with
  | (.ok definitions, _) => .ok ⟨definitions⟩
  | (.error e, _) => .error e

/-- `evaluate_expression` from the parser's test module (parser.rs):
arithmetic over `i128`; the unary operators the parser never produces
panic there, modelled as `none`, and division is Rust's truncating `/`
with the divide-by-zero panic as `none`. -/
def evaluate_expression : Expression → Option Int
  | .NaturalLiteral value => some value
  | .UnaryOperation .Plus value => evaluate_expression value
  | .UnaryOperation .Minus value => (evaluate_expression value).map (fun v => -v)
  | .UnaryOperation _ _ => none
  | .BinaryOperation .Add lhs rhs =>
    match evaluate_expression lhs, evaluate_expression rhs with
    | some l, some r => some (l + r)
    | _, _ => none
  | .BinaryOperation .Subtract lhs rhs =>
    match evaluate_expression lhs, evaluate_expression rhs with
    | some l, some r => some (l - r)
    | _, _ => none
  | .BinaryOperation .Multiply lhs rhs =>
    match evaluate_expression lhs, evaluate_expression rhs with
    | some l, some r => some (l * r)
    | _, _ => none
  | .BinaryOperation .Divide lhs rhs =>
    match evaluate_expression lhs, evaluate_expression rhs with
    | some l, some r => if r = 0 then none else some (Int.tdiv l r)
    | _, _ => none

/-- The token sequence of a source string (empty when lexing fails); glue
for stating concrete facts. -/
def lexedTokens (s : String) : List Token :=
  match lex s.toList with
  | .error _ => []
  | .ok toks => toks

/-- `parse_expression` applied to the token stream of a source string,
with ample fuel (lexing failures folded into the error channel). -/
def exprParsed (s : String) : Except PErr Expression :=
  match lex s.toList with
  | .error e => .error (.parse e)
  | .ok toks => (parse_expression (toks.length + 2) (TokenStream.new toks)).1

/-- `parse_term` applied to the token stream of a source string. -/
def termParsed (s : String) : Except PErr Expression :=
  match lex s.toList with
  | .error e => .error (.parse e)
  | .ok toks => (parse_term (toks.length + 2) (TokenStream.new toks)).1

/-- `parse` applied to the token stream of a source string. -/
def parsed (s : String) : Except PErr File' :=
  match lex s.toList with
  | .error e => .error (.parse e)
  | .ok toks => parse toks

/-- `evaluate_expression ∘ parse_expression ∘ lex`: the spec's
`evaluate(parse(...))`. -/
def evalParsed (s : String) : Option Int :=
  match exprParsed s with
  | .error _ => none
  | .ok e => evaluate_expression e

/-- `parse_statement` on the token stream of a source string, paired with
the cursor position and visible length the main stream is left with. -/
def stmtParsed (s : String) : Except PErr (Statement × Nat × Nat) :=
  match lex s.toList with
  | .error e => .error (.parse e)
  | .ok toks =>
    match parse_statement (TokenStream.new toks) with
    | (.error e, _) => .error e
    | (.ok st, ts') => .ok (st, ts'.index, ts'.tokens.length)

/-- The cursor invariant of claim C8: `0 ≤ cursor ≤ len(tokens)` (the
lower bound is `Nat`). -/
def TokenStream.inv (ts : TokenStream) : Prop :=
  ts.index ≤ ts.tokens.length

instance (ts : TokenStream) : Decidable ts.inv := by
  unfold TokenStream.inv
  infer_instance

/-! ### Helper lemmas about the token stream operations -/

theorem next_inv (ts : TokenStream) (msg : String) (h : ts.inv) :
    (ts.next msg).2.inv := by
  unfold TokenStream.next
  by_cases he : ts.is_end
  · simp [he, h]
  · cases hg : ts.tokens[ts.index]? with
    | none => simp [he, hg, h]
    | some t =>
      have hlt : ts.index < ts.tokens.length := by
        simp [TokenStream.is_end, TokenStream.len] at he
        omega
      simp [he, hg, TokenStream.inv]
      omega

theorem advanceLoop_inv (target : Token) :
    ∀ fuel ts, TokenStream.inv ts → (advanceLoop target fuel ts).inv := by
  intro fuel
  induction fuel with
  | zero => intro ts h; simpa [advanceLoop] using h
  | succ f ih =>
    intro ts h
    have hn := next_inv ts "" h
    unfold advanceLoop
    cases hx : ts.next "" with
    | mk r ts' =>
      rw [hx] at hn
      cases r with
      | error e => simpa using hn
      | ok tok =>
        by_cases ht : tok = target
        · simp [ht]
          exact hn
        · simp [ht]
          exact ih ts' hn

theorem limitLoop_ge (tokens : List Token) (k : TokenType) :
    ∀ fuel current, current ≤ limitLoop tokens k fuel current := by
  intro fuel
  induction fuel with
  | zero => intro current; exact Nat.le_refl _
  | succ f ih =>
    intro current
    unfold limitLoop
    cases h : tokens[current]? with
    | none => simp [h]
    | some t =>
      by_cases ht : t.type_ = k
      · simp [h, ht]
      · simp [h, ht]
        exact Nat.le_trans (Nat.le_succ _) (ih (current + 1))

theorem limitLoop_of_no_match (tokens : List Token) (k : TokenType) :
    ∀ fuel current, tokens.length ≤ fuel + current →
    (∀ i t, current ≤ i → tokens[i]? = some t → t.type_ ≠ k) →
    tokens.length ≤ limitLoop tokens k fuel current := by
  intro fuel
  induction fuel with
  | zero =>
    intro current hfuel _
    simpa [limitLoop] using hfuel
  | succ f ih =>
    intro current hfuel hno
    unfold limitLoop
    cases h : tokens[current]? with
    | none =>
      have := List.getElem?_eq_none_iff.mp h
      simpa using this
    | some t =>
      have ht : t.type_ ≠ k := hno current t (Nat.le_refl _) h
      simp [h, ht]
      exact ih (current + 1) (by omega) (fun i t' hi => hno i t' (by omega))

theorem limitLoop_of_first_match (tokens : List Token) (k : TokenType) :
    ∀ fuel current j t, tokens[j]? = some t → t.type_ = k →
    current ≤ j → j + 1 ≤ fuel + current →
    (∀ i t', current ≤ i → i < j → tokens[i]? = some t' → t'.type_ ≠ k) →
    limitLoop tokens k fuel current = j := by
  intro fuel
  induction fuel with
  | zero =>
    intro current j t _ _ hcj hfuel _
    omega
  | succ f ih =>
    intro current j t hj ht hcj hfuel hno
    unfold limitLoop
    by_cases hc : current = j
    · subst hc
      simp [hj, ht]
    · have hlt : current < j := by omega
      have hjlen : j < tokens.length := by
        by_contra hge
        rw [List.getElem?_eq_none_iff.mpr (by omega)] at hj
        exact Option.noConfusion hj
      have hclen : current < tokens.length := by omega
      have ht' : tokens[current]? = some tokens[current] :=
        List.getElem?_eq_getElem hclen
      have htne : (tokens[current]).type_ ≠ k :=
        hno current _ (Nat.le_refl _) hlt ht'
      simp [ht', htne]
      exact ih (current + 1) j t hj ht (by omega) (by omega)
        (fun i t'' hi => hno i t'' (by omega))

/-- C7 (corrected claim): when a required token is present but of the
wrong kind, the `ParseError` message of `Token::expect` names the expected
kind, and that of `Token::expect_any` names the expected set of kinds (the
kind actually found does not appear: see
`expect_error_omits_found_kind`). -/
theorem expect_error_names_expected_kinds (t : Token) (k : TokenType)
    (ks : List TokenType) (h1 : t.type_ ≠ k) (h2 : ks.contains t.type_ = false) :
    t.expect k = .error ("Expected '" ++ k.debugName ++ "' token")
    ∧ t.expect_any ks = .error ("Expected any of '" ++ debugList ks ++ "' token") := by
  have h2' : t.type_ ∉ ks := by simpa using h2
  constructor
  · simp [Token.expect, h1]
  · simp [Token.expect_any, h2']

/-- C7, refutation of the claim as stated: two tokens of different kinds
failing the same expectation produce the identical error message, so the
message cannot report the kind actually found. -/
theorem expect_error_omits_found_kind :
    (Token.mk .Identifer 0 1 ("x").toList).expect .Colon
        = (Token.mk .Plus 0 1 ("+").toList).expect .Colon
    ∧ (Token.mk .Identifer 0 1 ("x").toList).expect .Colon
        = .error "Expected 'Colon' token" := by
  decide

/-- C7, witness: `expect_error_names_expected_kinds` at a concrete
mismatched token. -/
theorem expect_error_names_expected_kinds_witness :
    (Token.mk .Identifer 0 1 ("x").toList).type_ ≠ TokenType.Colon
    ∧ ([TokenType.Var, TokenType.Const].contains
        (Token.mk .Identifer 0 1 ("x").toList).type_) = false
    ∧ (Token.mk .Identifer 0 1 ("x").toList).expect .Colon
        = .error "Expected 'Colon' token"
    ∧ (Token.mk .Identifer 0 1 ("x").toList).expect_any
        [TokenType.Var, TokenType.Const]
        = .error "Expected any of '[Var, Const]' token" :=
  ⟨by decide, by decide,
   (expect_error_names_expected_kinds (Token.mk .Identifer 0 1 ("x").toList)
     .Colon [TokenType.Var, TokenType.Const] (by decide) (by decide)).1,
   (expect_error_names_expected_kinds (Token.mk .Identifer 0 1 ("x").toList)
     .Colon [TokenType.Var, TokenType.Const] (by decide) (by decide)).2⟩

/-- C9: `next`, `lookahead` and `backtrack` are atomic on failure: when
the result is an error, the returned stream is exactly the input stream
(`lookahead` never changes the stream at all). -/
theorem token_stream_error_atomicity (ts : TokenStream) (msg : String)
    (amount : Nat) (e : PErr) :
    ((ts.next msg).1 = .error e → (ts.next msg).2 = ts)
    ∧ (ts.lookahead amount msg).2 = ts
    ∧ ((ts.backtrack amount msg).1 = .error e → (ts.backtrack amount msg).2 = ts) := by
  refine ⟨?_, ?_, ?_⟩
  · unfold TokenStream.next
    by_cases he : ts.is_end
    · simp [he]
    · cases hg : ts.tokens[ts.index]? with
      | none => simp [he, hg]
      | some t => simp [he, hg]
  · unfold TokenStream.lookahead
    split <;> rfl
  · unfold TokenStream.backtrack
    split
    · simp
    · simp

/-- C9, witness: `token_stream_error_atomicity` on the empty stream,
where `next` and `backtrack` both fail. -/
theorem token_stream_error_atomicity_witness :
    ((TokenStream.new []).next "m").1 = .error (.parse "m")
    ∧ ((TokenStream.new []).next "m").2 = TokenStream.new []
    ∧ ((TokenStream.new []).lookahead 1 "m").2 = TokenStream.new []
    ∧ ((TokenStream.new []).backtrack 1 "m").1 = .error (.parse "m")
    ∧ ((TokenStream.new []).backtrack 1 "m").2 = TokenStream.new [] :=
  ⟨by decide,
   (token_stream_error_atomicity (TokenStream.new []) "m" 1 (.parse "m")).1 (by decide),
   (token_stream_error_atomicity (TokenStream.new []) "m" 1 (.parse "m")).2.1,
   by decide,
   (token_stream_error_atomicity (TokenStream.new []) "m" 1 (.parse "m")).2.2 (by decide)⟩

/-- C8: the cursor invariant `0 ≤ cursor ≤ len(tokens)` is established by
construction (`new`, `make_substream`) and preserved by every operation;
a `next` at the end, a `lookahead` past the end and a `backtrack` below
zero return an error and leave the stream as it was. -/
theorem token_stream_cursor_invariant (toks : List Token) (ts other : TokenStream)
    (msg : String) (amount : Nat) (k : TokenType) (h : ts.inv) :
    (TokenStream.new toks).inv
    ∧ (ts.next msg).2.inv
    ∧ (ts.is_end = true → ts.next msg = (.error (.parse msg), ts))
    ∧ (ts.lookahead amount msg).2 = ts
    ∧ (ts.tokens.length < ts.index + amount →
        (ts.lookahead amount msg).1 = .error (.parse msg))
    ∧ (ts.backtrack amount msg).2.inv
    ∧ (ts.index < amount → ts.backtrack amount msg = (.error (.parse msg), ts))
    ∧ ts.make_substream.inv
    ∧ (ts.limit_to_first k).inv
    ∧ (ts.advance_past_other other).2.inv := by
  refine ⟨?_, next_inv ts msg h, ?_, ?_, ?_, ?_, ?_, ?_, ?_, ?_⟩
  · simp [TokenStream.new, TokenStream.inv]
  · intro he
    simp [TokenStream.next, he]
  · unfold TokenStream.lookahead
    split <;> rfl
  · intro hlt
    unfold TokenStream.lookahead
    rw [if_neg (by omega)]
  · unfold TokenStream.backtrack
    split
    · exact h
    · simp only [TokenStream.inv] at h ⊢
      omega
  · intro hlt
    unfold TokenStream.backtrack
    rw [if_pos (by omega)]
  · simp [TokenStream.make_substream, TokenStream.inv]
  · have hge := limitLoop_ge ts.tokens k (ts.tokens.length + 1) ts.index
    simp only [TokenStream.limit_to_first, TokenStream.inv, List.length_take] at h ⊢
    omega
  · unfold TokenStream.advance_past_other
    cases hx : (other.lookahead 1 "Expected any token").1 with
    | error e => simp [hx, h]
    | ok l =>
      cases l with
      | nil => simp [hx, h]
      | cons t rest => simpa [hx] using advanceLoop_inv t (ts.tokens.length + 1) ts h

/-- C8, witness: `token_stream_cursor_invariant` on a concrete one-token
stream at its end. -/
theorem token_stream_cursor_invariant_witness :
    (TokenStream.mk [Token.mk .Colon 0 1 (":").toList] 1).inv
    ∧ (TokenStream.new []).inv
    ∧ ((TokenStream.mk [Token.mk .Colon 0 1 (":").toList] 1).next "m").2.inv
    ∧ ((TokenStream.mk [Token.mk .Colon 0 1 (":").toList] 1).is_end = true →
        (TokenStream.mk [Token.mk .Colon 0 1 (":").toList] 1).next "m"
          = (.error (.parse "m"), TokenStream.mk [Token.mk .Colon 0 1 (":").toList] 1))
    ∧ ((TokenStream.mk [Token.mk .Colon 0 1 (":").toList] 1).lookahead 2 "m").2
        = TokenStream.mk [Token.mk .Colon 0 1 (":").toList] 1
    ∧ ((TokenStream.mk [Token.mk .Colon 0 1 (":").toList] 1).backtrack 2 "m").2.inv
    ∧ (TokenStream.mk [Token.mk .Colon 0 1 (":").toList] 1).make_substream.inv
    ∧ ((TokenStream.mk [Token.mk .Colon 0 1 (":").toList] 1).limit_to_first .Colon).inv
    ∧ ((TokenStream.mk [Token.mk .Colon 0 1 (":").toList] 1).advance_past_other
        (TokenStream.new [])).2.inv := by
  have main := token_stream_cursor_invariant [] (TokenStream.mk [Token.mk .Colon 0 1 (":").toList] 1)
    (TokenStream.new []) "m" 2 .Colon (by decide)
  exact ⟨by decide, main.1, main.2.1, main.2.2.1, main.2.2.2.1, main.2.2.2.2.2.1,
    main.2.2.2.2.2.2.2.1, main.2.2.2.2.2.2.2.2.1, main.2.2.2.2.2.2.2.2.2⟩

/-- C10: `limit_to_first` never moves the cursor; when no token of the
given kind occurs at or after the cursor it leaves the stream unchanged,
and otherwise it truncates the visible tokens to end just before the
first such occurrence (so every token before that occurrence is kept). -/
theorem limit_to_first_characterization (ts : TokenStream) (k : TokenType)
    (h : ts.inv) :
    (ts.limit_to_first k).index = ts.index
    ∧ ((∀ i t, ts.index ≤ i → ts.tokens[i]? = some t → t.type_ ≠ k) →
        ts.limit_to_first k = ts)
    ∧ (∀ j t, ts.tokens[j]? = some t → t.type_ = k → ts.index ≤ j →
        (∀ i t', ts.index ≤ i → i < j → ts.tokens[i]? = some t' → t'.type_ ≠ k) →
        (ts.limit_to_first k).tokens = ts.tokens.take j) := by
  refine ⟨rfl, ?_, ?_⟩
  · intro hno
    have hge := limitLoop_of_no_match ts.tokens k (ts.tokens.length + 1) ts.index
      (by omega) hno
    have : ts.tokens.take
        (limitLoop ts.tokens k (ts.tokens.length + 1) ts.index) = ts.tokens :=
      List.take_of_length_le hge
    cases ts with
    | mk tokens index => simpa [TokenStream.limit_to_first] using this
  · intro j t hj ht hcj hno
    have hjlen : j < ts.tokens.length := by
      by_contra hgt
      rw [List.getElem?_eq_none_iff.mpr (by omega)] at hj
      exact Option.noConfusion hj
    have heq := limitLoop_of_first_match ts.tokens k (ts.tokens.length + 1)
      ts.index j t hj ht hcj (by omega) hno
    simp [TokenStream.limit_to_first, heq]

/-- C10, witness: `limit_to_first_characterization` on a concrete stream
whose first token at the cursor already matches. -/
theorem limit_to_first_characterization_witness :
    ((TokenStream.mk [Token.mk .Colon 0 1 (":").toList] 0).limit_to_first .Colon).index = 0
    ∧ ((TokenStream.mk [Token.mk .Colon 0 1 (":").toList] 0).limit_to_first .Colon).tokens
        = [] := by
  have main := limit_to_first_characterization
    (TokenStream.mk [Token.mk .Colon 0 1 (":").toList] 0) .Colon (by decide)
  refine ⟨main.1, ?_⟩
  have := main.2.2 0 (Token.mk .Colon 0 1 (":").toList) (by decide) (by decide)
    (by decide) (fun i t' hle hlt => by omega)
  simpa using this

/-! ### Integer literal parsing (claim C3) -/

theorem parseI128_digits (ds : List Char) (h1 : ds ≠ [])
    (h2 : ds.all isAsciiDigitChar = true) (h3 : digitsToNat ds ≤ 2 ^ 127 - 1) :
    parseI128 ds = .ok (digitsToNat ds) := by
  cases ds with
  | nil => exact absurd rfl h1
  | cons c rest =>
    have hc : isAsciiDigitChar c = true := by
      rw [List.all_cons] at h2
      exact (Bool.and_eq_true_iff.mp h2).1
    have hplus : c ≠ '+' := by
      intro hcc
      rw [hcc] at hc
      exact absurd hc (by decide)
    have hminus : c ≠ '-' := by
      intro hcc
      rw [hcc] at hc
      exact absurd hc (by decide)
    simp [parseI128, hplus, hminus, h2]
    norm_num at h3
    exact h3

/-- C3 (corrected claim): an `IntegerLiteral` whose lexeme is a digit
string with value at most `2 ^ 127 - 1` (`i128::MAX`) parses through
`parse_factor` to a literal with exactly that value, and a lexeme that
`str::parse::<i128>` rejects (a non-digit, or a value past the `i128`
bounds) makes `parse_factor` return a parse error, never a panic.  The
claim's "arbitrary-precision, any length" part is refuted by
`parse_factor_overflow_literal_errors`. -/
theorem parse_factor_literal (ds : List Char) (t : Token) (e : String)
    (h1 : ds ≠ []) (h2 : ds.all isAsciiDigitChar = true)
    (h3 : digitsToNat ds ≤ 2 ^ 127 - 1)
    (ht : t.type_ = .IntegerLiteral)
    (he : parseI128 t.text = .error e) :
    parse_factor 1 (TokenStream.new [Token.mk .IntegerLiteral 0 ds.length ds])
      = (.ok (.NaturalLiteral (digitsToNat ds)),
         TokenStream.mk [Token.mk .IntegerLiteral 0 ds.length ds] 1)
    ∧ parse_factor 1 (TokenStream.new [t])
      = (.error (.parse ("Invalid number literal '" ++ e ++ "'")),
         TokenStream.mk [t] 1) := by
  constructor
  · have hp := parseI128_digits ds h1 h2 h3
    simp [parse_factor, TokenStream.new, TokenStream.lookahead, TokenStream.next,
      TokenStream.is_end, TokenStream.len, Token.expect, Token.text, hp]
  · simp [parse_factor, TokenStream.new, TokenStream.lookahead, TokenStream.next,
      TokenStream.is_end, TokenStream.len, Token.expect, ht, he]

/-- C3, witness: `parse_factor_literal` at the lexeme `7` and at an
`IntegerLiteral` token whose lexeme `x` fails integer parsing. -/
theorem parse_factor_literal_witness :
    parse_factor 1 (TokenStream.new [Token.mk .IntegerLiteral 0 1 ("7").toList])
      = (.ok (.NaturalLiteral 7), TokenStream.mk [Token.mk .IntegerLiteral 0 1 ("7").toList] 1)
    ∧ parse_factor 1 (TokenStream.new [Token.mk .IntegerLiteral 0 1 ("x").toList])
      = (.error (.parse "Invalid number literal 'invalid digit found in string'"),
         TokenStream.mk [Token.mk .IntegerLiteral 0 1 ("x").toList] 1) :=
  ⟨(parse_factor_literal ("7").toList (Token.mk .IntegerLiteral 0 1 ("x").toList)
      "invalid digit found in string" (by decide) (by decide) (by decide) (by decide)
      (by decide)).1,
   (parse_factor_literal ("7").toList (Token.mk .IntegerLiteral 0 1 ("x").toList)
      "invalid digit found in string" (by decide) (by decide) (by decide) (by decide)
      (by decide)).2⟩

/-- C3, refutation of the claim as stated: the 39-digit literal `2 ^ 127`
lexes as a single `IntegerLiteral`, yet `parse_factor` returns the `i128`
overflow parse error rather than succeeding with that value. -/
theorem parse_factor_overflow_literal_errors :
    lexedTokens "170141183460469231731687303715884105728"
      = [Token.mk .IntegerLiteral 0 39 ("170141183460469231731687303715884105728").toList]
    ∧ (parse_factor 3 (TokenStream.new
        (lexedTokens "170141183460469231731687303715884105728"))).1
      = .error (.parse "Invalid number literal 'number too large to fit in target type'") := by
  decide

/-! ### Lexer error characterization (claim C6) -/

theorem scanWhile_ge (code : List Char) (pred : Char → Bool) :
    ∀ fuel pos, pos ≤ scanWhile code pred fuel pos := by
  intro fuel
  induction fuel with
  | zero => intro pos; exact Nat.le_refl _
  | succ f ih =>
    intro pos
    unfold scanWhile
    split
    · exact Nat.le_trans (Nat.le_succ _) (ih (pos + 1))
    · exact Nat.le_refl _

theorem scanWhile_stop (code : List Char) (pred : Char → Bool) :
    ∀ fuel pos, code.length ≤ pos + fuel →
    code.length ≤ scanWhile code pred fuel pos
    ∨ pred (code.getD (scanWhile code pred fuel pos) nullChar) = false := by
  intro fuel
  induction fuel with
  | zero =>
    intro pos h
    left
    simpa [scanWhile] using h
  | succ f ih =>
    intro pos h
    unfold scanWhile
    by_cases hcond : pos < code.length ∧ pred (code.getD pos nullChar) = true
    · rw [if_pos hcond]
      exact ih (pos + 1) (by omega)
    · rw [if_neg hcond]
      rcases Decidable.not_and_iff_or_not.mp hcond with h2 | h2
      · left; omega
      · right; simpa using h2

theorem scanWhile_advances (code : List Char) (pred : Char → Bool) (fuel pos : Nat)
    (h1 : pos < code.length) (h2 : pred (code.getD pos nullChar) = true) :
    pos + 1 ≤ scanWhile code pred (fuel + 1) pos := by
  unfold scanWhile
  rw [if_pos ⟨h1, h2⟩]
  exact scanWhile_ge code pred fuel (pos + 1)

theorem commentSkip_ge (code : List Char) :
    ∀ fuel pos, pos ≤ commentSkip code fuel pos := by
  intro fuel
  induction fuel with
  | zero => intro pos; exact Nat.le_refl _
  | succ f ih =>
    intro pos
    unfold commentSkip
    by_cases h1 : code.getD pos nullChar ≠ '\n'
    · rw [if_pos h1]
      split
      · omega
      · exact Nat.le_trans (Nat.le_succ _) (ih (pos + 1))
    · rw [if_neg h1]

theorem commentSkip_advances (code : List Char) (fuel pos : Nat)
    (h : code.getD pos nullChar ≠ '\n') :
    pos + 1 ≤ commentSkip code (fuel + 1) pos := by
  unfold commentSkip
  rw [if_pos h]
  split
  · exact Nat.le_refl _
  · exact commentSkip_ge code fuel (pos + 1)

theorem isWordStartChar_isWordChar (c : Char) (h : isWordStartChar c = true) :
    isWordChar c = true := by
  simp [isWordStartChar] at h
  simp [isWordChar, rustIsAlphanumericChar]
  tauto

theorem lexLoop_error_char (code : List Char) :
    ∀ fuel pos tokens msg, code.length < fuel + pos → 1 ≤ fuel →
    lexLoop code fuel pos tokens = .error msg →
    ∃ i, i < code.length ∧
      rustIsWhitespace (code.getD i nullChar) = false ∧
      isWordStartChar (code.getD i nullChar) = false ∧
      isAsciiDigitChar (code.getD i nullChar) = false ∧
      TokenType.from_symbol (code.getD i nullChar) = none ∧
      msg = "Unexpected token '" ++ String.mk [code.getD i nullChar] ++ "'" := by
  intro fuel
  induction fuel with
  | zero =>
    intro pos tokens msg _ h2 _
    omega
  | succ f ih =>
    intro pos tokens msg h1 _ herr
    simp only [lexLoop] at herr
    by_cases hend : pos ≥ code.length
    · rw [if_pos hend] at herr
      exact absurd herr (by simp)
    rw [if_neg hend] at herr
    set p := scanWhile code rustIsWhitespace (code.length + 1) pos with hp
    have hppos : pos ≤ p := hp ▸ scanWhile_ge code rustIsWhitespace (code.length + 1) pos
    by_cases hpend : p ≥ code.length
    · rw [if_pos hpend] at herr
      exact absurd herr (by simp)
    rw [if_neg hpend] at herr
    have hplen : p < code.length := by omega
    have hws : rustIsWhitespace (code.getD p nullChar) = false := by
      rcases scanWhile_stop code rustIsWhitespace (code.length + 1) pos (by omega)
        with hst | hst
      · rw [← hp] at hst; omega
      · rw [← hp] at hst; exact hst
    have hfge : 1 ≤ f := by omega
    by_cases hslash : code.getD p nullChar = '/'
    · rw [if_pos hslash] at herr
      by_cases hcmt : code[p + 1]? = some '/'
      · rw [if_pos hcmt] at herr
        have hskip : p + 1 ≤ commentSkip code (code.length + 1) p :=
          commentSkip_advances code (code.length) p (by rw [hslash]; decide)
        exact ih (commentSkip code (code.length + 1) p) _ msg (by omega) hfge herr
      · rw [if_neg hcmt] at herr
        exact ih (p + 1) _ msg (by omega) hfge herr
    rw [if_neg hslash] at herr
    by_cases hword : isWordStartChar (code.getD p nullChar) = true
    · rw [if_pos hword] at herr
      have hadv : p + 1 ≤ scanWhile code isWordChar (code.length + 1) p :=
        scanWhile_advances code isWordChar (code.length) p hplen
          (isWordStartChar_isWordChar _ hword)
      cases hkw : TokenType.from_keyword
          ((code.drop p).take (scanWhile code isWordChar (code.length + 1) p - p)) with
      | some kw =>
        simp only [hkw] at herr
        exact ih (scanWhile code isWordChar (code.length + 1) p) _ msg (by omega) hfge herr
      | none =>
        simp only [hkw] at herr
        exact ih (scanWhile code isWordChar (code.length + 1) p) _ msg (by omega) hfge herr
    rw [if_neg hword] at herr
    by_cases hdig : isAsciiDigitChar (code.getD p nullChar) = true
    · rw [if_pos hdig] at herr
      have hadv : p + 1 ≤ scanWhile code isAsciiDigitChar (code.length + 1) p :=
        scanWhile_advances code isAsciiDigitChar (code.length) p hplen hdig
      exact ih (scanWhile code isAsciiDigitChar (code.length + 1) p) _ msg (by omega)
        hfge herr
    rw [if_neg hdig] at herr
    cases hsym : TokenType.from_symbol (code.getD p nullChar) with
    | some symbol_type =>
      simp only [hsym] at herr
      exact ih (p + 1) _ msg (by omega) hfge herr
    | none =>
      simp only [hsym] at herr
      refine ⟨p, hplen, hws, by simpa using hword, by simpa using hdig, hsym, ?_⟩
      have := Except.error.inj herr
      exact this.symm

/-- C6 (corrected claim): on ASCII source (where the embedding is exact),
`lex` fails only when some position holds a character that is not
whitespace, not a word start (letter or underscore), not a digit, and not
in the symbol table; the error message names that character — but, unlike
the claim, not its offset (see `lex_error_omits_offset`). -/
theorem lex_fails_only_on_unknown_char (code : List Char) (msg : String)
    (hascii : ∀ c ∈ code, c.toNat < 128)
    (herr : lex code = .error msg) :
    ∃ i, i < code.length ∧
      rustIsWhitespace (code.getD i nullChar) = false ∧
      isWordStartChar (code.getD i nullChar) = false ∧
      isAsciiDigitChar (code.getD i nullChar) = false ∧
      TokenType.from_symbol (code.getD i nullChar) = none ∧
      msg = "Unexpected token '" ++ String.mk [code.getD i nullChar] ++ "'" :=
  lexLoop_error_char code (code.length + 1) 0 [] msg (by omega) (by omega) herr

/-- C6, refutation of the "carries its offset" part of the claim: the
unknown character `#` at offset 0 and at offset 1 produce the identical
total error value, so the error cannot carry the offset. -/
theorem lex_error_omits_offset :
    lex ("#").toList = .error "Unexpected token '#'"
    ∧ lex (" #").toList = .error "Unexpected token '#'" := by
  decide

/-- C6, witness: `lex_fails_only_on_unknown_char` on the source `#`. -/
theorem lex_fails_only_on_unknown_char_witness :
    (∀ c ∈ ("#").toList, c.toNat < 128)
    ∧ lex ("#").toList = .error "Unexpected token '#'"
    ∧ ∃ i, i < ("#").toList.length ∧
        rustIsWhitespace (("#").toList.getD i nullChar) = false ∧
        isWordStartChar (("#").toList.getD i nullChar) = false ∧
        isAsciiDigitChar (("#").toList.getD i nullChar) = false ∧
        TokenType.from_symbol (("#").toList.getD i nullChar) = none ∧
        "Unexpected token '#'"
          = "Unexpected token '" ++ String.mk [("#").toList.getD i nullChar] ++ "'" :=
  ⟨by decide, by decide,
   lex_fails_only_on_unknown_char ("#").toList "Unexpected token '#'"
     (by decide) (by decide)⟩

/-! ### Expression parsing: precedence and associativity (claim C4) -/

theorem binOpLoop_stops_outside_set
    (sub : TokenStream → Except PErr Expression × TokenStream)
    (operators : List TokenType) (fuel : Nat) (lhs : Expression) (ts : TokenStream)
    (h : ∀ t, ts.tokens[ts.index]? = some t → operators.contains t.type_ = false) :
    binOpLoop sub operators (fuel + 1) lhs ts = (.ok lhs, ts) := by
  unfold binOpLoop
  cases hg : ts.tokens[ts.index]? with
  | none =>
    have hlen := List.getElem?_eq_none_iff.mp hg
    have hno : ¬ (ts.index + 1 ≤ ts.tokens.length) := by omega
    simp [TokenStream.lookahead, hno]
  | some t =>
    have hlt : ts.index < ts.tokens.length := by
      by_contra hge
      rw [List.getElem?_eq_none_iff.mpr (by omega)] at hg
      exact Option.noConfusion hg
    have hteq : ts.tokens[ts.index] = t := by
      rw [List.getElem?_eq_getElem hlt] at hg
      exact Option.some.inj hg
    have htake : (ts.tokens.drop ts.index).take 1 = [t] := by
      rw [List.take_one_drop_eq_of_lt_length hlt]
      simp [List.get_eq_getElem, hteq]
    have hle : ts.index + 1 ≤ ts.tokens.length := hlt
    have hmem : t.type_ ∉ operators := by simpa using h t hg
    simp [TokenStream.lookahead, hle, htake, hmem]

theorem parse_expression_folds_left (t1 m1 t2 m2 t3 : Token) (v1 v2 v3 : Int) (f : Nat)
    (h1 : t1.type_ = .IntegerLiteral) (hp1 : parseI128 t1.text = .ok v1)
    (h2 : t2.type_ = .IntegerLiteral) (hp2 : parseI128 t2.text = .ok v2)
    (h3 : t3.type_ = .IntegerLiteral) (hp3 : parseI128 t3.text = .ok v3)
    (hm1 : m1.type_ = .Minus) (hm2 : m2.type_ = .Minus) :
    parse_expression (f + 7) (TokenStream.new [t1, m1, t2, m2, t3])
      = (.ok (.BinaryOperation .Subtract
          (.BinaryOperation .Subtract (.NaturalLiteral v1) (.NaturalLiteral v2))
          (.NaturalLiteral v3)),
         TokenStream.mk [t1, m1, t2, m2, t3] 5) := by
  simp [parse_expression, parse_term, parse_factor, parse_binary_operation, binOpLoop,
    BinaryOperator.from_token_type, TokenStream.new, TokenStream.lookahead,
    TokenStream.next, TokenStream.is_end, TokenStream.len, Token.expect,
    h1, hp1, h2, hp2, h3, hp3, hm1, hm2]

/-- C4: expression parsing respects precedence and left-associativity:
the six spec evaluation cases hold; the `2 - 2 - 1` stream parses to the
left-folded tree `((2 - 2) - 1)`, and in general any
`literal - literal - literal` token stream does; and a binary-operation
level whose next token is outside its passed operator set consumes
nothing and returns its left operand unchanged. -/
theorem expression_precedence_and_associativity :
    (evalParsed "0 + 7 * 3 + 5" = some 26
     ∧ evalParsed "1 - 5" = some (-4)
     ∧ evalParsed "8 * 0 + 4" = some 4
     ∧ evalParsed "22 - 6 * 2 + 1" = some 11
     ∧ evalParsed "2 - 2 - 1" = some (-1)
     ∧ evalParsed "-15" = some (-15))
    ∧ exprParsed "2 - 2 - 1"
        = .ok (.BinaryOperation .Subtract
            (.BinaryOperation .Subtract (.NaturalLiteral 2) (.NaturalLiteral 2))
            (.NaturalLiteral 1))
    ∧ (∀ (t1 m1 t2 m2 t3 : Token) (v1 v2 v3 : Int) (f : Nat),
        t1.type_ = .IntegerLiteral → parseI128 t1.text = .ok v1 →
        t2.type_ = .IntegerLiteral → parseI128 t2.text = .ok v2 →
        t3.type_ = .IntegerLiteral → parseI128 t3.text = .ok v3 →
        m1.type_ = .Minus → m2.type_ = .Minus →
        parse_expression (f + 7) (TokenStream.new [t1, m1, t2, m2, t3])
          = (.ok (.BinaryOperation .Subtract
              (.BinaryOperation .Subtract (.NaturalLiteral v1) (.NaturalLiteral v2))
              (.NaturalLiteral v3)),
             TokenStream.mk [t1, m1, t2, m2, t3] 5))
    ∧ (∀ (sub : TokenStream → Except PErr Expression × TokenStream)
        (operators : List TokenType) (fuel : Nat) (lhs : Expression) (ts : TokenStream),
        (∀ t, ts.tokens[ts.index]? = some t → operators.contains t.type_ = false) →
        binOpLoop sub operators (fuel + 1) lhs ts = (.ok lhs, ts)) :=
  ⟨⟨by decide, by decide, by decide, by decide, by decide, by decide⟩,
   by decide,
   fun t1 m1 t2 m2 t3 v1 v2 v3 f h1 hp1 h2 hp2 h3 hp3 hm1 hm2 =>
     parse_expression_folds_left t1 m1 t2 m2 t3 v1 v2 v3 f h1 hp1 h2 hp2 h3 hp3 hm1 hm2,
   fun sub operators fuel lhs ts h =>
     binOpLoop_stops_outside_set sub operators fuel lhs ts h⟩

/-- C4, witness: the quantified parts of
`expression_precedence_and_associativity` at the concrete token stream of
`2 - 2 - 1` and at a multiplicative level looking at `+`. -/
theorem expression_precedence_and_associativity_witness :
    (Token.mk .IntegerLiteral 0 1 ("2 - 2 - 1").toList).type_ = TokenType.IntegerLiteral
    ∧ parseI128 (Token.mk .IntegerLiteral 0 1 ("2 - 2 - 1").toList).text = .ok 2
    ∧ (Token.mk .Minus 2 3 ("2 - 2 - 1").toList).type_ = TokenType.Minus
    ∧ parse_expression 7 (TokenStream.new
        [Token.mk .IntegerLiteral 0 1 ("2 - 2 - 1").toList,
         Token.mk .Minus 2 3 ("2 - 2 - 1").toList,
         Token.mk .IntegerLiteral 4 5 ("2 - 2 - 1").toList,
         Token.mk .Minus 6 7 ("2 - 2 - 1").toList,
         Token.mk .IntegerLiteral 8 9 ("2 - 2 - 1").toList])
      = (.ok (.BinaryOperation .Subtract
          (.BinaryOperation .Subtract (.NaturalLiteral 2) (.NaturalLiteral 2))
          (.NaturalLiteral 1)),
         TokenStream.mk
          [Token.mk .IntegerLiteral 0 1 ("2 - 2 - 1").toList,
           Token.mk .Minus 2 3 ("2 - 2 - 1").toList,
           Token.mk .IntegerLiteral 4 5 ("2 - 2 - 1").toList,
           Token.mk .Minus 6 7 ("2 - 2 - 1").toList,
           Token.mk .IntegerLiteral 8 9 ("2 - 2 - 1").toList] 5)
    ∧ binOpLoop (parse_factor 1) [TokenType.Star, TokenType.Slash] 1 (.NaturalLiteral 1)
        (TokenStream.new [Token.mk .Plus 0 1 ("+").toList])
      = (.ok (.NaturalLiteral 1), TokenStream.new [Token.mk .Plus 0 1 ("+").toList]) := by
  have main := expression_precedence_and_associativity
  refine ⟨by decide, by decide, by decide, ?_, ?_⟩
  · exact main.2.2.1
      (Token.mk .IntegerLiteral 0 1 ("2 - 2 - 1").toList)
      (Token.mk .Minus 2 3 ("2 - 2 - 1").toList)
      (Token.mk .IntegerLiteral 4 5 ("2 - 2 - 1").toList)
      (Token.mk .Minus 6 7 ("2 - 2 - 1").toList)
      (Token.mk .IntegerLiteral 8 9 ("2 - 2 - 1").toList)
      2 2 1 0 (by decide) (by decide) (by decide) (by decide) (by decide) (by decide)
      (by decide) (by decide)
  · exact main.2.2.2 (parse_factor 1) [TokenType.Star, TokenType.Slash] 0
      (.NaturalLiteral 1) (TokenStream.new [Token.mk .Plus 0 1 ("+").toList])
      (fun t ht => by
        simp [TokenStream.new] at ht
        rw [← ht]
        decide)

/-! ### Division panic (claims C1 and C2) and declarations (claim C5) -/

/-- C1 (code bug): parsing a program whose initializer expression
contains `/` does not return an ordinary parse result: the `.unwrap()` on
`BinaryOperator::from_token_type` (which returns `None` for `Slash`)
panics, modelled as `PErr.panicked`, contradicting the no-panic policy. -/
theorem parse_panics_on_slash_expression :
    BinaryOperator.from_token_type .Slash = none
    ∧ parsed "const x: n64 = 1 / 2;" = .error .panicked
    ∧ exprParsed "1 / 2" = .error .panicked := by
  decide

/-- C2 (code bug): on the token stream of `1 / 2` (integer literal,
`Slash`, integer literal) `parse_term` recognizes `/` as a multiplicative
operator and consumes it, but then panics unwrapping
`BinaryOperator::from_token_type(Slash) = None` instead of returning a
`Divide` node. -/
theorem parse_term_panics_on_division :
    (lexedTokens "1 / 2").map Token.type_
        = [.IntegerLiteral, .Slash, .IntegerLiteral]
    ∧ termParsed "1 / 2" = .error .panicked
    ∧ termParsed "8 * 3" = .ok (.BinaryOperation .Multiply
        (.NaturalLiteral 8) (.NaturalLiteral 3)) := by
  decide

/-- C5: `const x: n64;` parses to an immutable declaration with no
initializer and `var x: n64 = 1 + 2;` to a mutable one with initializer
`Add(1, 2)`; in both cases the main stream is left with its cursor
exactly past the terminating semicolon (positions 5 and 9, the first
token of the following statement) and its visible token sequence intact
(lengths 10 and 14). -/
theorem variable_declaration_parsing :
    (lexedTokens "const x: n64; var y: n64;").map Token.type_
        = [.Const, .Identifer, .Colon, .N64, .Semicolon,
           .Var, .Identifer, .Colon, .N64, .Semicolon]
    ∧ stmtParsed "const x: n64; var y: n64;"
        = .ok (.VariableDeclaration .Immutable "x" .N64 none, 5, 10)
    ∧ (lexedTokens "var x: n64 = 1 + 2; const y: n64;").map Token.type_
        = [.Var, .Identifer, .Colon, .N64, .Equals,
           .IntegerLiteral, .Plus, .IntegerLiteral, .Semicolon,
           .Const, .Identifer, .Colon, .N64, .Semicolon]
    ∧ stmtParsed "var x: n64 = 1 + 2; const y: n64;"
        = .ok (.VariableDeclaration .Mutable "x" .N64
            (some (.BinaryOperation .Add (.NaturalLiteral 1) (.NaturalLiteral 2))),
           9, 14) := by
  decide
